import Mathlib

/-!
Shallow embedding of the letters-game API engine (`src/server.js`).

The transport shell (express routing, JSON parsing, HTTP statuses) is out of
scope; we embed the engine: the global `games` array, the three controllers
`createGame`, `setGameDict`, `makeMove`, and their helpers `boardIsValid`,
`dictIsValid`, `tileIsValid`, `tilesToWord`, `moveIsAllowed`,
`isConsecutiveNeighbor`, `moveExists`.

Modelling conventions:
* A JS number is modelled as a rational (`ℚ`); `isNaN`/`% 1 === 0` checks
  become denominator tests.  A move payload is `Option (List ℚ)`: `none`
  models a body that is not an array of numbers (e.g. `null`), `some qs`
  an array of numbers.
* Board and dictionary payloads are `Option (List JElem)`: `none` models a
  missing/non-array field, and each element is either a string or some
  non-string JSON value.
* The dictionary object `{WORD: true, ...}` is modelled by the list of its
  (uppercased) keys, membership by `List.contains`.  Since every key stored
  and every key looked up is uppercased, lookups can never collide with the
  (lowercase/camelCase) `Object.prototype` properties, so plain membership
  is faithful.
* HTTP error responses become explicit error constructors; success bodies
  become `Except.ok` payloads.
-/

namespace LettersGame

/-- An element of a JSON array as seen by the duck-typed validators: either a
string or some non-string value. -/
inductive JElem where
  | str (s : String)
  | nonstr
deriving DecidableEq

/-- The string content of a `JElem` (the empty string on the unreachable
non-string case). -/
def JElem.asString : JElem → String
  | .str s => s
  | .nonstr => ""

/-- `Game : { "dict": {String: Boolean}, "board": [String], "moves": [[Number]] }`
(server.js line 5).  `dict` is `null` until attached. -/
structure Game where
  dict : Option (List String)
  board : List String
  moves : List (List Int)
deriving DecidableEq

/-- Error outcome of `createGame` (HTTP 400 "Invalid board"). -/
inductive BoardErr where
  | InvalidBoard
deriving DecidableEq

/-- Error outcomes of `setGameDict` (404 "Game was not found",
400 "Invalid dictionary"). -/
inductive DictErr where
  | NotFound
  | InvalidDictionary
deriving DecidableEq

/-- Error outcomes of `makeMove` (404, 403 "Game is missing dictionary",
400 "Move must be list of 3+ tiles", 403 "Move is not allowed on board",
403 "Move already played"). -/
inductive MoveErr where
  | NotFound
  | DictionaryMissing
  | MalformedMove
  | DisallowedMove
  | DuplicateMove
deriving DecidableEq

/-- JS array indexing `l[i]` on a string array where an out-of-range or
negative index yields `undefined`, rendered as `""` by `join`. -/
def jsAt (l : List String) (i : Int) : String :=
  if 0 ≤ i then l.getD i.toNat "" else ""

/-- JS `toUpperCase` (on the ASCII letters this program handles), written as a
character-by-character map over the string's character list so that it
evaluates by plain kernel reduction. -/
def jsToUpper (s : String) : String :=
  ⟨s.data.map Char.toUpper⟩

/-- `boardIsValid` (server.js 109-114): the `board` field must be present and
an array (`none` models absence or a non-array), of length exactly 16, with
every element a string of length 1. -/
def boardIsValid (input : Option (List JElem)) : Bool :=
  match input with
  | none => false
  | some l =>
      l.length == 16 &&
      l.all fun e =>
        match e with
        | .str s => s.length == 1
        | .nonstr => false

/-- `dictIsValid` (server.js 117-121): the `words` field must be present and
an array, with every element a string (any length, empty array allowed). -/
def dictIsValid (input : Option (List JElem)) : Bool :=
  match input with
  | none => false
  | some l =>
      l.all fun e =>
        match e with
        | .str _ => true
        | .nonstr => false

/-- `tileIsValid` (server.js 124-128): the value is a number (`!isNaN`), an
integer (`tile % 1 === 0`, i.e. denominator 1), and between 1 and 16. -/
def tileIsValid (t : ℚ) : Bool :=
  t.den == 1 && decide ((1 : ℚ) ≤ t) && decide (t ≤ 16)

/-- `tilesToWord` (server.js 131-133):
`tiles.map(tile => game.board[tile - 1]).join("").toUpperCase()`. -/
def tilesToWord (tiles : List Int) (game : Game) : String :=
  jsToUpper (String.join (tiles.map fun tile => jsAt game.board (tile - 1)))

/-- `isConsecutiveNeighbor` (server.js 148-164), as passed to `Array.every`:
at index 0 it accepts, otherwise the previous tile must differ from the
current one by one of ±1, ±3, ±4, ±5. -/
def isConsecutiveNeighbor (tile : Int) (index : Nat) (tiles : List Int) : Bool :=
  if index == 0 then true
  else
    let lastTile := tiles.getD (index - 1) 0
    tile - 4 == lastTile
    || tile + 4 == lastTile
    || tile - 1 == lastTile
    || tile + 1 == lastTile
    || tile - 3 == lastTile
    || tile + 3 == lastTile
    || tile - 5 == lastTile
    || tile + 5 == lastTile

/-- `tiles.every(isConsecutiveNeighbor)` (server.js 140). -/
def everyConsecutiveNeighbor (tiles : List Int) : Bool :=
  (List.range tiles.length).all fun i =>
    isConsecutiveNeighbor (tiles.getD i 0) i tiles

/-- `moveIsAllowed` (server.js 136-145): length at least 3, consecutive tiles
are neighbors, no tile repeats (`new Set(tiles).size`), and the formed word is
in the dictionary.  (`game.dict.getD []` totalises the unreachable
null-dictionary case: the controller only calls this after the dictionary
check.) -/
def moveIsAllowed (tiles : List Int) (game : Game) : Bool :=
  decide (3 ≤ tiles.length)
  && everyConsecutiveNeighbor tiles
  && tiles.dedup.length == tiles.length
  && (game.dict.getD []).contains (tilesToWord tiles game)

/-- `moveExists` (server.js 167-169): some prior accepted move spells the same
word. -/
def moveExists (tiles : List Int) (game : Game) : Bool :=
  (game.moves.map fun move => tilesToWord move game).contains (tilesToWord tiles game)

/-- `createGame` (server.js 66-77): validate the board wrapper, then append a
new game with a null dictionary, the uppercased board, and no moves, returning
its 0-indexed id. -/
def createGame (games : List Game) (input : Option (List JElem)) :
    Except BoardErr Nat × List Game :=
  if !boardIsValid input then (.error .InvalidBoard, games)
  else
    (.ok games.length,
     games ++ [{ dict := none,
                 board := (input.getD []).map fun e => jsToUpper e.asString,
                 moves := [] }])

/-- `setGameDict` (server.js 79-88): 404 if the game does not exist, 400 if the
dictionary wrapper is invalid, otherwise replace the game's dictionary by the
uppercased word set. -/
def setGameDict (games : List Game) (gameId : Nat) (input : Option (List JElem)) :
    Except DictErr Unit × List Game :=
  match games[gameId]? with
  | none => (.error .NotFound, games)
  | some game =>
      if !dictIsValid input then (.error .InvalidDictionary, games)
      else
        (.ok (),
         games.set gameId
           { game with dict := some ((input.getD []).map fun e => jsToUpper e.asString) })

/-- `makeMove` (server.js 90-104): 404 if the game does not exist, 403 if the
dictionary is missing, 400 if the body is not an array of valid tiles, 403 if
the move is not allowed on the board, 403 if the word was already played;
otherwise append the move and return its 0-indexed id and `2^(length-3)`
points. -/
def makeMove (games : List Game) (gameId : Nat) (payload : Option (List ℚ)) :
    Except MoveErr (Nat × Nat) × List Game :=
  match games[gameId]? with
  | none => (.error .NotFound, games)
  | some game =>
      if game.dict.isNone then (.error .DictionaryMissing, games)
      else
        match payload with
        | none => (.error .MalformedMove, games)
        | some raw =>
            if !raw.all tileIsValid then (.error .MalformedMove, games)
            else
              if !moveIsAllowed (raw.map Rat.num) game then (.error .DisallowedMove, games)
              else if moveExists (raw.map Rat.num) game then (.error .DuplicateMove, games)
              else
                (.ok (game.moves.length, 2 ^ ((raw.map Rat.num).length - 3)),
                 games.set gameId { game with moves := game.moves ++ [raw.map Rat.num] })

/-- Decidable equality of engine results, so concrete runs can be settled by
`decide`. -/
instance {ε α : Type} [DecidableEq ε] [DecidableEq α] : DecidableEq (Except ε α) := fun a b =>
  match a, b with
  | .ok x, .ok y => decidable_of_iff (x = y) (by simp)
  | .error x, .error y => decidable_of_iff (x = y) (by simp)
  | .ok _, .error _ => isFalse (by simp)
  | .error _, .ok _ => isFalse (by simp)

/-- Demo board `A..P` in row-major order: tile 6 holds `F`, tile 1 holds `A`,
tile 2 holds `B`, so the path `[6, 1, 2]` spells `FAB`. -/
def demoBoard : List String :=
  ["A", "B", "C", "D", "E", "F", "G", "H", "I", "J", "K", "L", "M", "N", "O", "P"]

/-- A game with the demo board, the one-word dictionary `FAB`, and no moves. -/
def demoGame : Game :=
  { dict := some ["FAB"], board := demoBoard, moves := [] }

/-- `makeMove` on an unknown game id: 404 without touching state. -/
theorem makeMove_no_game (games : List Game) (gid : Nat) (p : Option (List ℚ))
    (hg : games[gid]? = none) :
    makeMove games gid p = (.error .NotFound, games) := by
  simp [makeMove, hg]

/-- `makeMove` on a game with a null dictionary: 403 without touching state. -/
theorem makeMove_no_dict (games : List Game) (gid : Nat) (game : Game) (p : Option (List ℚ))
    (hg : games[gid]? = some game) (hd : game.dict = none) :
    makeMove games gid p = (.error .DictionaryMissing, games) := by
  simp [makeMove, hg, hd]

/-- `makeMove` with a body that is not an array of numbers: 400 without
touching state. -/
theorem makeMove_malformed_body (games : List Game) (gid : Nat) (game : Game) (d : List String)
    (hg : games[gid]? = some game) (hd : game.dict = some d) :
    makeMove games gid none = (.error .MalformedMove, games) := by
  simp [makeMove, hg, hd]

/-- `makeMove` with some tile failing `tileIsValid`: 400 without touching
state. -/
theorem makeMove_malformed_tile (games : List Game) (gid : Nat) (game : Game) (d : List String)
    (qs : List ℚ) (hg : games[gid]? = some game) (hd : game.dict = some d)
    (hq : qs.all tileIsValid = false) :
    makeMove games gid (some qs) = (.error .MalformedMove, games) := by
  simp [makeMove, hg, hd, hq]

/-- `makeMove` with a well-shaped body that `moveIsAllowed` rejects: 403
without touching state. -/
theorem makeMove_disallowed (games : List Game) (gid : Nat) (game : Game) (d : List String)
    (qs : List ℚ) (hg : games[gid]? = some game) (hd : game.dict = some d)
    (hq : qs.all tileIsValid = true)
    (hm : moveIsAllowed (qs.map Rat.num) game = false) :
    makeMove games gid (some qs) = (.error .DisallowedMove, games) := by
  simp [makeMove, hg, hd, hq, hm]

/-- `makeMove` with an allowed move whose word was already played: 403
without touching state. -/
theorem makeMove_duplicate (games : List Game) (gid : Nat) (game : Game) (d : List String)
    (qs : List ℚ) (hg : games[gid]? = some game) (hd : game.dict = some d)
    (hq : qs.all tileIsValid = true)
    (hm : moveIsAllowed (qs.map Rat.num) game = true)
    (hx : moveExists (qs.map Rat.num) game = true) :
    makeMove games gid (some qs) = (.error .DuplicateMove, games) := by
  simp [makeMove, hg, hd, hq, hm, hx]

/-- `makeMove` success: returns the 0-indexed move id and `2^(length-3)`
points, and appends exactly this move to this game's history. -/
theorem makeMove_success (games : List Game) (gid : Nat) (game : Game) (d : List String)
    (qs : List ℚ) (hg : games[gid]? = some game) (hd : game.dict = some d)
    (hq : qs.all tileIsValid = true)
    (hm : moveIsAllowed (qs.map Rat.num) game = true)
    (hx : moveExists (qs.map Rat.num) game = false) :
    makeMove games gid (some qs) =
      (.ok (game.moves.length, 2 ^ (qs.length - 3)),
       games.set gid { game with moves := game.moves ++ [qs.map Rat.num] }) := by
  simp [makeMove, hg, hd, hq, hm, hx]

/-- Every `makeMove` outcome is an error leaving the state untouched, or a
success. -/
theorem makeMove_shape (games : List Game) (gid : Nat) (p : Option (List ℚ)) :
    (∃ e, makeMove games gid p = (.error e, games)) ∨
    ∃ r s2, makeMove games gid p = (.ok r, s2) := by
  unfold makeMove
  split
  · exact Or.inl ⟨_, rfl⟩
  · split
    · exact Or.inl ⟨_, rfl⟩
    · split
      · exact Or.inl ⟨_, rfl⟩
      · split
        · exact Or.inl ⟨_, rfl⟩
        · split
          · exact Or.inl ⟨_, rfl⟩
          · split
            · exact Or.inl ⟨_, rfl⟩
            · exact Or.inr ⟨_, _, rfl⟩

/-- A failed `makeMove` leaves the games list unchanged. -/
theorem makeMove_error_state (games : List Game) (gid : Nat) (p : Option (List ℚ)) (e : MoveErr)
    (h : (makeMove games gid p).1 = .error e) : (makeMove games gid p).2 = games := by
  rcases makeMove_shape games gid p with ⟨e2, hs⟩ | ⟨r, s2, hs⟩
  · rw [hs]
  · rw [hs] at h
    exact absurd h (by simp)

/-- Inversion of a successful `makeMove`: the game exists, the dictionary was
attached, the body was an array of valid tiles, the move was allowed and not
yet played, and the result and state update have the stated form. -/
theorem makeMove_ok_inv (games : List Game) (gid : Nat) (p : Option (List ℚ))
    (r : Nat × Nat) (s2 : List Game)
    (h : makeMove games gid p = (.ok r, s2)) :
    ∃ game qs d,
      games[gid]? = some game ∧ p = some qs ∧ game.dict = some d ∧
      qs.all tileIsValid = true ∧
      moveIsAllowed (qs.map Rat.num) game = true ∧
      moveExists (qs.map Rat.num) game = false ∧
      r = (game.moves.length, 2 ^ (qs.length - 3)) ∧
      s2 = games.set gid { game with moves := game.moves ++ [qs.map Rat.num] } := by
  cases hg : games[gid]? with
  | none => rw [makeMove_no_game games gid p hg] at h; exact absurd h (by simp)
  | some game =>
    cases hdo : game.dict with
    | none => rw [makeMove_no_dict games gid game p hg hdo] at h; exact absurd h (by simp)
    | some d =>
      cases p with
      | none => rw [makeMove_malformed_body games gid game d hg hdo] at h; exact absurd h (by simp)
      | some qs =>
        cases hq : qs.all tileIsValid with
        | false =>
          rw [makeMove_malformed_tile games gid game d qs hg hdo hq] at h
          exact absurd h (by simp)
        | true =>
          cases hm : moveIsAllowed (qs.map Rat.num) game with
          | false =>
            rw [makeMove_disallowed games gid game d qs hg hdo hq hm] at h
            exact absurd h (by simp)
          | true =>
            cases hx : moveExists (qs.map Rat.num) game with
            | true =>
              rw [makeMove_duplicate games gid game d qs hg hdo hq hm hx] at h
              exact absurd h (by simp)
            | false =>
              rw [makeMove_success games gid game d qs hg hdo hq hm hx] at h
              rw [Prod.mk.injEq] at h
              exact ⟨game, qs, d, rfl, rfl, hdo, hq, hm, hx,
                (Except.ok.inj h.1).symm, h.2.symm⟩

/-- `setGameDict` on an unknown game id: 404 without touching state, whatever
the body. -/
theorem setGameDict_no_game (games : List Game) (gid : Nat) (i : Option (List JElem))
    (hg : games[gid]? = none) :
    setGameDict games gid i = (.error .NotFound, games) := by
  simp [setGameDict, hg]

/-- `setGameDict` with an invalid dictionary wrapper: 400 without touching
state. -/
theorem setGameDict_invalid (games : List Game) (gid : Nat) (game : Game)
    (i : Option (List JElem)) (hg : games[gid]? = some game)
    (hi : dictIsValid i = false) :
    setGameDict games gid i = (.error .InvalidDictionary, games) := by
  simp [setGameDict, hg, hi]

/-- `setGameDict` success: replaces this game's dictionary by the uppercased
word set and changes nothing else. -/
theorem setGameDict_ok (games : List Game) (gid : Nat) (game : Game)
    (i : Option (List JElem)) (hg : games[gid]? = some game)
    (hi : dictIsValid i = true) :
    setGameDict games gid i =
      (.ok (),
       games.set gid
         { game with dict := some ((i.getD []).map fun e => jsToUpper e.asString) }) := by
  simp [setGameDict, hg, hi]

/-- Every `setGameDict` outcome is an error leaving state untouched, or a
success that only rewrites the dictionary of the addressed game. -/
theorem setGameDict_shape (games : List Game) (gid : Nat) (i : Option (List JElem)) :
    (∃ e, setGameDict games gid i = (.error e, games)) ∨
    ∃ game, games[gid]? = some game ∧
      setGameDict games gid i =
        (.ok (),
         games.set gid
           { game with dict := some ((i.getD []).map fun e => jsToUpper e.asString) }) := by
  cases hg : games[gid]? with
  | none => exact Or.inl ⟨_, setGameDict_no_game games gid i hg⟩
  | some game =>
    cases hi : dictIsValid i with
    | false => exact Or.inl ⟨_, setGameDict_invalid games gid game i hg hi⟩
    | true => exact Or.inr ⟨game, rfl, setGameDict_ok games gid game i hg hi⟩

/-- A failed `setGameDict` leaves the games list unchanged. -/
theorem setGameDict_error_state (games : List Game) (gid : Nat) (i : Option (List JElem))
    (e : DictErr) (h : (setGameDict games gid i).1 = .error e) :
    (setGameDict games gid i).2 = games := by
  rcases setGameDict_shape games gid i with ⟨e2, hs⟩ | ⟨game, hg, hs⟩
  · rw [hs]
  · rw [hs] at h
    exact absurd h (by simp)

/-- `setGameDict` never changes any game's move history. -/
theorem setGameDict_moves (games : List Game) (gid : Nat) (i : Option (List JElem)) (j : Nat) :
    ((setGameDict games gid i).2[j]?).map Game.moves = (games[j]?).map Game.moves := by
  rcases setGameDict_shape games gid i with ⟨e, hs⟩ | ⟨game, hg, hs⟩
  · rw [hs]
  · rw [hs]
    by_cases hj : gid = j
    · subst hj
      rw [List.getElem?_set_self (List.getElem?_eq_some.mp hg).1, hg]
      rfl
    · rw [List.getElem?_set_ne hj]

/-- `createGame` with an invalid board wrapper: 400 without touching state. -/
theorem createGame_invalid (games : List Game) (input : Option (List JElem))
    (hb : boardIsValid input = false) :
    createGame games input = (.error .InvalidBoard, games) := by
  simp [createGame, hb]

/-- `createGame` success: returns the 0-indexed id of the game appended at
the end, holding a null dictionary, the uppercased board, and no moves. -/
theorem createGame_ok (games : List Game) (input : Option (List JElem))
    (hb : boardIsValid input = true) :
    createGame games input =
      (.ok games.length,
       games ++ [{ dict := none,
                   board := (input.getD []).map fun e => jsToUpper e.asString,
                   moves := [] }]) := by
  simp [createGame, hb]

/-- `createGame` never changes any existing game record. -/
theorem createGame_preserves (games : List Game) (input : Option (List JElem)) (j : Nat)
    (hj : j < games.length) :
    (createGame games input).2[j]? = games[j]? := by
  cases hb : boardIsValid input with
  | false => rw [createGame_invalid games input hb]
  | true =>
    rw [createGame_ok games input hb]
    exact List.getElem?_append_left hj

/-- Claim C2: two consecutive tiles pass the neighbor check exactly when
their index difference is one of ±1, ±3, ±4, ±5 — pure offset arithmetic with
no row-boundary (wrap) restriction; hence the path [6, 1, 2] passes the
adjacency check and [12, 15, 1, 4] fails it, independent of the board letters
and dictionary contents (the check reads neither). -/
theorem c2_adjacency_offsets :
    (∀ (tiles : List Int) (index : Nat) (tile : Int),
        isConsecutiveNeighbor tile (index + 1) tiles =
          decide (tile - tiles.getD index 0 = 1 ∨ tile - tiles.getD index 0 = -1 ∨
                  tile - tiles.getD index 0 = 3 ∨ tile - tiles.getD index 0 = -3 ∨
                  tile - tiles.getD index 0 = 4 ∨ tile - tiles.getD index 0 = -4 ∨
                  tile - tiles.getD index 0 = 5 ∨ tile - tiles.getD index 0 = -5))
    ∧ everyConsecutiveNeighbor [6, 1, 2] = true
    ∧ everyConsecutiveNeighbor [12, 15, 1, 4] = false := by
  refine ⟨?_, by decide, by decide⟩
  intro tiles index tile
  rw [isConsecutiveNeighbor, if_neg (by simp), Nat.add_sub_cancel]
  rw [Bool.eq_iff_iff]
  simp only [Bool.or_eq_true, beq_iff_eq, decide_eq_true_eq]
  omega

/-- Claim C5: every accepted move is worth `2^(length of the path - 3)`
points. -/
theorem c5_scoring (games : List Game) (gid : Nat) (qs : List ℚ)
    (mid pts : Nat) (s2 : List Game)
    (h : makeMove games gid (some qs) = (.ok (mid, pts), s2)) :
    pts = 2 ^ (qs.length - 3) := by
  obtain ⟨game, qs2, d, hg, hp, hd, hq, hm, hx, hr, hs⟩ :=
    makeMove_ok_inv games gid (some qs) (mid, pts) s2 h
  cases Option.some.inj hp
  exact (Prod.ext_iff.mp hr).2

/-- Witness for C5: the accepted 3-tile move `[6, 1, 2]` scores
`1 = 2^(3-3)` point. -/
theorem c5_witness : (1 : Nat) = 2 ^ (([(6 : ℚ), 1, 2]).length - 3) :=
  c5_scoring [demoGame] 0 [6, 1, 2] 0 1
    [{ dict := some ["FAB"], board := demoBoard, moves := [[6, 1, 2]] }] (by decide)

/-- Claim C8: no operation mutates state on a failure path — a move
submission returning any error, and a dictionary attach returning any error,
leave the games list (hence every board, dictionary, and move history)
unchanged. -/
theorem c8_failure_purity (games : List Game) (gid : Nat) :
    (∀ (p : Option (List ℚ)) (e : MoveErr),
        (makeMove games gid p).1 = .error e → (makeMove games gid p).2 = games)
    ∧ (∀ (i : Option (List JElem)) (e : DictErr),
        (setGameDict games gid i).1 = .error e → (setGameDict games gid i).2 = games) :=
  ⟨fun p e h => makeMove_error_state games gid p e h,
   fun i e h => setGameDict_error_state games gid i e h⟩

/-- Witness for C8: a move submitted to the empty registry fails and leaves
the registry empty. -/
theorem c8_witness : (makeMove [] 0 none).2 = ([] : List Game) :=
  (c8_failure_purity [] 0).1 none .NotFound (by decide)

/-- Claim C7: move-submission checks run in the fixed order game existence
(NotFound), dictionary presence (DictionaryMissing), shape (MalformedMove),
rule legality (DisallowedMove), word non-repetition (DuplicateMove) — each
error is produced exactly when every earlier check passes and its own check
fails, whatever the later checks would say — and `setGameDict` returns
NotFound for an unknown game before its input shape is validated. -/
theorem c7_check_order (games : List Game) (gid : Nat) :
    (∀ p, games[gid]? = none → makeMove games gid p = (.error .NotFound, games))
    ∧ (∀ p game, games[gid]? = some game → game.dict = none →
        makeMove games gid p = (.error .DictionaryMissing, games))
    ∧ (∀ game d, games[gid]? = some game → game.dict = some d →
        makeMove games gid none = (.error .MalformedMove, games))
    ∧ (∀ qs game d, games[gid]? = some game → game.dict = some d →
        qs.all tileIsValid = false →
        makeMove games gid (some qs) = (.error .MalformedMove, games))
    ∧ (∀ qs game d, games[gid]? = some game → game.dict = some d →
        qs.all tileIsValid = true → moveIsAllowed (qs.map Rat.num) game = false →
        makeMove games gid (some qs) = (.error .DisallowedMove, games))
    ∧ (∀ qs game d, games[gid]? = some game → game.dict = some d →
        qs.all tileIsValid = true → moveIsAllowed (qs.map Rat.num) game = true →
        moveExists (qs.map Rat.num) game = true →
        makeMove games gid (some qs) = (.error .DuplicateMove, games))
    ∧ (∀ i, games[gid]? = none → setGameDict games gid i = (.error .NotFound, games)) :=
  ⟨fun p hg => makeMove_no_game games gid p hg,
   fun p game hg hd => makeMove_no_dict games gid game p hg hd,
   fun game d hg hd => makeMove_malformed_body games gid game d hg hd,
   fun qs game d hg hd hq => makeMove_malformed_tile games gid game d qs hg hd hq,
   fun qs game d hg hd hq hm => makeMove_disallowed games gid game d qs hg hd hq hm,
   fun qs game d hg hd hq hm hx => makeMove_duplicate games gid game d qs hg hd hq hm hx,
   fun i hg => setGameDict_no_game games gid i hg⟩

/-- Witness for C7: on the empty registry, a move submission and a dictionary
attach both fail NotFound, whatever their bodies. -/
theorem c7_witness :
    makeMove [] 0 none = (.error .NotFound, []) ∧
    setGameDict [] 0 none = (.error .NotFound, []) :=
  ⟨(c7_check_order [] 0).1 none rfl, (c7_check_order [] 0).2.2.2.2.2.2 none rfl⟩

/-- Claim C6: `createGame` succeeds exactly when the input supplies a
sequence of exactly 16 elements, each a string of length 1 — any other shape
fails InvalidBoard — and on success the stored board is every input
character uppercased. -/
theorem c6_board_validation (games : List Game) (input : Option (List JElem)) :
    (boardIsValid input = true ↔
      ∃ l, input = some l ∧ l.length = 16 ∧
        ∀ e ∈ l, ∃ s, e = JElem.str s ∧ s.length = 1)
    ∧ (boardIsValid input = false →
        createGame games input = (.error .InvalidBoard, games))
    ∧ (∀ l, input = some l → boardIsValid input = true →
        createGame games input =
          (.ok games.length,
           games ++ [{ dict := none,
                       board := l.map fun e => jsToUpper e.asString,
                       moves := [] }])) := by
  refine ⟨?_, fun hb => createGame_invalid games input hb, ?_⟩
  · cases input with
    | none => simp [boardIsValid]
    | some l =>
      simp only [boardIsValid, Bool.and_eq_true, beq_iff_eq, List.all_eq_true]
      constructor
      · rintro ⟨h16, hall⟩
        refine ⟨l, rfl, h16, fun e he => ?_⟩
        cases e with
        | str s => exact ⟨s, rfl, by simpa using hall _ he⟩
        | nonstr => exact absurd (hall _ he) (by simp)
      · rintro ⟨l2, hl, h16, hall⟩
        cases Option.some.inj hl
        refine ⟨h16, fun e he => ?_⟩
        obtain ⟨s, rfl, hs⟩ := hall e he
        simpa using hs
  · intro l hl hb
    cases hl
    rw [createGame_ok games (some l) hb]
    rfl

/-- A lowercase 16-letter board input `a..p`. -/
def demoLowerInput : List JElem :=
  [.str "a", .str "b", .str "c", .str "d", .str "e", .str "f", .str "g", .str "h",
   .str "i", .str "j", .str "k", .str "l", .str "m", .str "n", .str "o", .str "p"]

/-- Witness for C6: creating a game from the lowercase board `a..p` succeeds
with id 0 and stores the uppercased board `A..P`. -/
theorem c6_witness :
    createGame [] (some demoLowerInput) =
      (.ok 0, [{ dict := none, board := demoBoard, moves := [] }]) := by
  have h := (c6_board_validation [] (some demoLowerInput)).2.2 demoLowerInput rfl (by decide)
  rw [h]
  decide

/-- Claim C3: a move that passes the shape, adjacency, and within-move
uniqueness checks is accepted only if the word derived by concatenating the
board letters along the path (uppercased) is in the attached dictionary;
whenever the derived word is not in the dictionary, the submission fails
DisallowedMove. -/
theorem c3_dictionary_membership (games : List Game) (gid : Nat) (game : Game)
    (d : List String) (qs : List ℚ)
    (hg : games[gid]? = some game) (hd : game.dict = some d)
    (hq : qs.all tileIsValid = true)
    (hlen : 3 ≤ qs.length)
    (hadj : everyConsecutiveNeighbor (qs.map Rat.num) = true)
    (hnodup : (qs.map Rat.num).dedup.length = qs.length) :
    (d.contains (tilesToWord (qs.map Rat.num) game) = false →
      makeMove games gid (some qs) = (.error .DisallowedMove, games))
    ∧ (∀ r s2, makeMove games gid (some qs) = (.ok r, s2) →
        d.contains (tilesToWord (qs.map Rat.num) game) = true) := by
  constructor
  · intro hw
    refine makeMove_disallowed games gid game d qs hg hd hq ?_
    simp only [moveIsAllowed, hd, Option.getD_some]
    simp
    intro _ _ _
    simpa using hw
  · intro r s2 h
    obtain ⟨game2, qs2, d2, hg2, hp, hd2, hq2, hm2, hx2, hr, hs⟩ :=
      makeMove_ok_inv games gid (some qs) r s2 h
    cases Option.some.inj hp
    have hgame : game2 = game := Option.some.inj (hg2.symm.trans hg)
    subst hgame
    have hdd : d2 = d := Option.some.inj (hd2.symm.trans hd)
    subst hdd
    simp only [moveIsAllowed, hd2, Option.getD_some, Bool.and_eq_true] at hm2
    exact hm2.2

/-- Witness for C3: on the demo game the path `[1, 2, 3]` spells `ABC`, which
is adjacent-valid and repeat-free but absent from the dictionary, so the
submission fails DisallowedMove. -/
theorem c3_witness :
    makeMove [demoGame] 0 (some [1, 2, 3]) = (.error .DisallowedMove, [demoGame]) :=
  (c3_dictionary_membership [demoGame] 0 demoGame ["FAB"] [1, 2, 3] rfl rfl (by decide)
    (by decide) (by decide) (by decide)).1 (by decide)

/-- One call into the engine: game creation, dictionary attach, or move
submission. -/
inductive Op where
  | create (i : Option (List JElem))
  | attach (gid : Nat) (i : Option (List JElem))
  | move (gid : Nat) (p : Option (List ℚ))

/-- The state after one call (its result discarded). -/
def applyOp (s : List Game) : Op → List Game
  | .create i => (createGame s i).2
  | .attach gid i => (setGameDict s gid i).2
  | .move gid p => (makeMove s gid p).2

/-- The state after a sequence of calls. -/
def applyOps (s : List Game) : List Op → List Game
  | [] => s
  | op :: ops => applyOps (applyOp s op) ops

/-- `setGameDict` keeps every game's board and move history. -/
theorem setGameDict_board_moves (games : List Game) (gid : Nat) (i : Option (List JElem))
    (j : Nat) (g : Game) (hj : games[j]? = some g) :
    ∃ g2, ((setGameDict games gid i).2)[j]? = some g2 ∧
      g2.board = g.board ∧ g2.moves = g.moves := by
  rcases setGameDict_shape games gid i with ⟨e, hs2⟩ | ⟨game, hg, hs2⟩
  · rw [hs2]
    exact ⟨g, hj, rfl, rfl⟩
  · rw [hs2]
    by_cases hij : gid = j
    · subst hij
      have hgg : game = g := Option.some.inj (hg.symm.trans hj)
      subst hgg
      exact ⟨_, List.getElem?_set_self (List.getElem?_eq_some.mp hj).1, rfl, rfl⟩
    · rw [List.getElem?_set_ne hij]
      exact ⟨g, hj, rfl, rfl⟩

/-- `makeMove` keeps every game's board and never drops a stored move. -/
theorem makeMove_board_moves (games : List Game) (gid : Nat) (p : Option (List ℚ))
    (j : Nat) (g : Game) (hj : games[j]? = some g) :
    ∃ g2, ((makeMove games gid p).2)[j]? = some g2 ∧
      g2.board = g.board ∧ ∀ m ∈ g.moves, m ∈ g2.moves := by
  rcases makeMove_shape games gid p with ⟨e, hs2⟩ | ⟨r, s2, hs2⟩
  · rw [hs2]
    exact ⟨g, hj, rfl, fun m hm => hm⟩
  · obtain ⟨game, qs, d, hg, hp, hd, hq, hm, hx, hr, hset⟩ := makeMove_ok_inv games gid p r s2 hs2
    have h2 : (makeMove games gid p).2 =
        games.set gid { game with moves := game.moves ++ [qs.map Rat.num] } := by
      rw [hs2, hset]
    rw [h2]
    by_cases hij : gid = j
    · subst hij
      have hgg : game = g := Option.some.inj (hg.symm.trans hj)
      subst hgg
      exact ⟨_, List.getElem?_set_self (List.getElem?_eq_some.mp hj).1, rfl,
        fun m hm => List.mem_append_left _ hm⟩
    · rw [List.getElem?_set_ne hij]
      exact ⟨g, hj, rfl, fun m hm => hm⟩

/-- No single call changes a game's board or drops a move from its history. -/
theorem applyOp_history (op : Op) (s : List Game) (j : Nat) (g : Game)
    (hj : s[j]? = some g) :
    ∃ g2, (applyOp s op)[j]? = some g2 ∧ g2.board = g.board ∧
      ∀ m ∈ g.moves, m ∈ g2.moves := by
  cases op with
  | create i =>
    rw [applyOp, createGame_preserves s i j (List.getElem?_eq_some.mp hj).1]
    exact ⟨g, hj, rfl, fun m hm => hm⟩
  | attach gid i =>
    obtain ⟨g2, h1, h2, h3⟩ := setGameDict_board_moves s gid i j g hj
    exact ⟨g2, h1, h2, fun m hm => h3 ▸ hm⟩
  | move gid p =>
    exact makeMove_board_moves s gid p j g hj

/-- No sequence of calls changes a game's board or drops a move from its
history. -/
theorem applyOps_history (ops : List Op) :
    ∀ (s : List Game) (j : Nat) (g : Game), s[j]? = some g →
      ∃ g2, (applyOps s ops)[j]? = some g2 ∧ g2.board = g.board ∧
        ∀ m ∈ g.moves, m ∈ g2.moves := by
  induction ops with
  | nil => exact fun s j g hj => ⟨g, hj, rfl, fun m hm => hm⟩
  | cons op ops ih =>
    intro s j g hj
    obtain ⟨g1, h1, hb1, hm1⟩ := applyOp_history op s j g hj
    obtain ⟨g2, h2, hb2, hm2⟩ := ih (applyOp s op) j g1 h1
    exact ⟨g2, h2, hb2.trans hb1, fun m hm => hm2 m (hm1 m hm)⟩

/-- Claim C4: once a move deriving word W has been accepted, every subsequent
submission that derives the same word W — along the same path or a different
one, and after any further sequence of creations, attaches, and submissions —
fails DuplicateMove, even when it passes the shape, adjacency, uniqueness,
and dictionary checks. -/
theorem c4_duplicate_word (games s2 s3 : List Game) (gid : Nat) (game3 : Game)
    (qs1 qs2 : List ℚ) (r : Nat × Nat) (ops : List Op)
    (h1 : makeMove games gid (some qs1) = (.ok r, s2))
    (hs3 : s3 = applyOps s2 ops)
    (hg3 : s3[gid]? = some game3)
    (hq2 : qs2.all tileIsValid = true)
    (hm2 : moveIsAllowed (qs2.map Rat.num) game3 = true)
    (hw : tilesToWord (qs2.map Rat.num) game3 = tilesToWord (qs1.map Rat.num) game3) :
    makeMove s3 gid (some qs2) = (.error .DuplicateMove, s3) := by
  subst hs3
  obtain ⟨game, qs1b, d, hg, hp, hd, hq1, hm1, hx1, hr, hset⟩ :=
    makeMove_ok_inv games gid (some qs1) r s2 h1
  cases Option.some.inj hp
  have hlt : gid < games.length := (List.getElem?_eq_some.mp hg).1
  have hupd : s2[gid]? = some { game with moves := game.moves ++ [qs1.map Rat.num] } := by
    rw [hset]
    exact List.getElem?_set_self (by simpa using hlt)
  obtain ⟨g2, hg2, hboard, hmono⟩ := applyOps_history ops s2 gid _ hupd
  have hgame3 : game3 = g2 := Option.some.inj (hg3.symm.trans hg2)
  have hmem : (qs1.map Rat.num) ∈ game3.moves := by
    rw [hgame3]
    exact hmono _ (List.mem_append_right _ (List.mem_singleton_self _))
  cases hd3 : game3.dict with
  | none => simp [moveIsAllowed, hd3] at hm2
  | some d3 =>
    have hex : moveExists (qs2.map Rat.num) game3 = true := by
      rw [moveExists, hw]
      have : tilesToWord (qs1.map Rat.num) game3 ∈
          game3.moves.map fun move => tilesToWord move game3 :=
        List.mem_map_of_mem _ hmem
      simpa using this
    exact makeMove_duplicate _ gid game3 d3 qs2 hg3 hd3 hq2 hm2 hex

/-- The demo game after the accepted move `[6, 1, 2]` (word `FAB`). -/
def demoGamePlayed : Game :=
  { dict := some ["FAB"], board := demoBoard, moves := [[6, 1, 2]] }

/-- Witness for C4: after `[6, 1, 2]` (word `FAB`) is accepted on the demo
game, and a rejected submission and a new game creation intervene,
resubmitting a path deriving `FAB` still fails DuplicateMove. -/
theorem c4_witness :
    makeMove (applyOps [demoGamePlayed]
        [Op.move 0 (some [1, 2, 3]), Op.create (some demoLowerInput)]) 0 (some [6, 1, 2]) =
      (.error .DuplicateMove,
       applyOps [demoGamePlayed]
         [Op.move 0 (some [1, 2, 3]), Op.create (some demoLowerInput)]) :=
  c4_duplicate_word [demoGame] [demoGamePlayed] _ 0 demoGamePlayed [6, 1, 2] [6, 1, 2] (0, 1)
    [Op.move 0 (some [1, 2, 3]), Op.create (some demoLowerInput)]
    (by decide) rfl (by decide) (by decide) (by decide) (by decide)

/-- Run a sequence of move submissions against one game id, collecting the
results and threading the state. -/
def runMoves (gid : Nat) :
    List Game → List (Option (List ℚ)) → List (Except MoveErr (Nat × Nat)) × List Game
  | games, [] => ([], games)
  | games, p :: ps =>
      let step := makeMove games gid p
      let rest := runMoves gid step.2 ps
      (step.1 :: rest.1, rest.2)

/-- The move ids of the successful results, in order. -/
def acceptedIds (rs : List (Except MoveErr (Nat × Nat))) : List Nat :=
  rs.filterMap fun r =>
    match r with
    | .ok (mid, _) => some mid
    | .error _ => none

/-- Running submissions against a game with history length n yields accepted
move ids exactly n, n+1, n+2, …, and grows that game's history append-only by
exactly the number of accepted moves, leaving its board unchanged. -/
theorem runMoves_ids (gid : Nat) (ps : List (Option (List ℚ))) :
    ∀ (games : List Game) (game : Game), games[gid]? = some game →
      ∃ game2,
        (runMoves gid games ps).2[gid]? = some game2 ∧
        game2.board = game.board ∧
        acceptedIds (runMoves gid games ps).1 =
          List.range' game.moves.length (acceptedIds (runMoves gid games ps).1).length ∧
        game2.moves.length =
          game.moves.length + (acceptedIds (runMoves gid games ps).1).length ∧
        game2.moves.take game.moves.length = game.moves := by
  induction ps with
  | nil =>
    intro games game hg
    exact ⟨game, hg, rfl, rfl, rfl, by simp⟩
  | cons p ps ih =>
    intro games game hg
    simp only [runMoves]
    rcases makeMove_shape games gid p with ⟨e, hstep⟩ | ⟨r, s2, hstep⟩
    · simp only [hstep]
      obtain ⟨game2, h1, h2, h3, h4, h5⟩ := ih games game hg
      refine ⟨game2, h1, h2, ?_, ?_, h5⟩
      · simpa only [acceptedIds, List.filterMap_cons, List.length_cons] using h3
      · simpa only [acceptedIds, List.filterMap_cons, List.length_cons] using h4
    · obtain ⟨game1, qs, d, hg1, hp, hd1, hq1, hm1, hx1, hr, hs⟩ :=
        makeMove_ok_inv games gid p r s2 hstep
      have hgame : game1 = game := Option.some.inj (hg1.symm.trans hg)
      rw [hgame] at hd1 hm1 hx1 hr hs
      simp only [hstep]
      have hlt : gid < games.length := (List.getElem?_eq_some.mp hg).1
      have hupd : s2[gid]? = some { game with moves := game.moves ++ [qs.map Rat.num] } := by
        rw [hs]
        exact List.getElem?_set_self (by simpa using hlt)
      obtain ⟨game2, h1, h2, h3, h4, h5⟩ :=
        ih s2 { game with moves := game.moves ++ [qs.map Rat.num] } hupd
      have hlen1 : ({ game with moves := game.moves ++ [qs.map Rat.num] } : Game).moves.length =
          game.moves.length + 1 := by simp
      rw [hlen1] at h3 h4 h5
      refine ⟨game2, h1, h2, ?_, ?_, ?_⟩
      · simp only [acceptedIds, List.filterMap_cons, hr, List.length_cons]
        simp only [acceptedIds] at h3
        conv_lhs => rw [h3]
        rfl
      · simp only [acceptedIds, List.filterMap_cons, hr, List.length_cons]
        simp only [acceptedIds] at h4
        omega
      · have h5c := congrArg (List.take game.moves.length) h5
        rw [List.take_take, min_eq_left (by omega)] at h5c
        rw [h5c]
        exact List.take_left _ _

/-- Claim C9: for a game whose history has length n, the moveIds returned by
successive accepted submissions are exactly n, n+1, n+2, … in acceptance
order with no gaps or reuse — so exactly 0, 1, 2, … for a fresh game —
regardless of rejected submissions in between; and successful submission is
the only operation that changes a move history, strictly by appending one
move: failed submissions leave the state unchanged, a success appends exactly
the submitted move, and dictionary attach and game creation never change any
existing move history. -/
theorem c9_move_ids (games : List Game) (gid : Nat) (game : Game)
    (hg : games[gid]? = some game) :
    (∀ ps, acceptedIds (runMoves gid games ps).1 =
        List.range' game.moves.length (acceptedIds (runMoves gid games ps).1).length)
    ∧ (game.moves = [] → ∀ ps, acceptedIds (runMoves gid games ps).1 =
        List.range (acceptedIds (runMoves gid games ps).1).length)
    ∧ (∀ p e, (makeMove games gid p).1 = .error e → (makeMove games gid p).2 = games)
    ∧ (∀ qs r s2, makeMove games gid (some qs) = (.ok r, s2) →
        s2 = games.set gid { game with moves := game.moves ++ [qs.map Rat.num] })
    ∧ (∀ (gid2 j : Nat) (i : Option (List JElem)),
        (((setGameDict games gid2 i).2)[j]?).map Game.moves = (games[j]?).map Game.moves)
    ∧ (∀ (j : Nat) (i : Option (List JElem)), j < games.length →
        (createGame games i).2[j]? = games[j]?) := by
  refine ⟨?_, ?_, fun p e h => makeMove_error_state games gid p e h, ?_,
          fun gid2 j i => setGameDict_moves games gid2 i j,
          fun j i hj => createGame_preserves games i j hj⟩
  · intro ps
    obtain ⟨game2, _, _, h3, _, _⟩ := runMoves_ids gid ps games game hg
    exact h3
  · intro hempty ps
    obtain ⟨game2, _, _, h3, _, _⟩ := runMoves_ids gid ps games game hg
    rw [List.range_eq_range']
    simpa [hempty] using h3
  · intro qs r s2 h
    obtain ⟨game1, qs1, d, hg1, hp, _, _, _, _, _, hs⟩ :=
      makeMove_ok_inv games gid (some qs) r s2 h
    cases Option.some.inj hp
    have hgame : game1 = game := Option.some.inj (hg1.symm.trans hg)
    rw [hgame] at hs
    exact hs

/-- The demo game with the two-word dictionary FAB, ABC. -/
def demoGame2 : Game :=
  { dict := some ["FAB", "ABC"], board := demoBoard, moves := [] }

/-- Witness for C9: on the fresh two-word demo game, the run FAB-move
(accepted), two-tile move (rejected), ABC-move (accepted) returns moveIds
exactly `[0, 1]`. -/
theorem c9_witness :
    acceptedIds (runMoves 0 [demoGame2] [some [6, 1, 2], some [1, 2], some [1, 2, 3]]).1 =
      [0, 1] :=
  ((c9_move_ids [demoGame2] 0 demoGame2 rfl).1
    [some [6, 1, 2], some [1, 2], some [1, 2, 3]]).trans (by decide)

/-- A JS value submitted as a tile.  `num q` is a JS number with finite value
`q`.  `nonNum tag coer` is any other JS value — a string, boolean, `null`, an
object — together with its `ToNumber` coercion `coer` (`none` when that
coercion is `NaN` or not finite); `tag` distinguishes different values with
the same coercion, since `"2"`, `"02"` and `true`, `"1"` are different values
for `===` and for `Set` membership but coerce alike.  Examples: the boolean
`true` is `nonNum 0 (some 1)`, the string `"2"` is `nonNum 1 (some 2)`,
`null` is `nonNum 2 (some 0)`, the string `"x"` is `nonNum 3 none`. -/
inductive JVal where
  | num (q : ℚ)
  | nonNum (tag : Nat) (coer : Option ℚ)
deriving DecidableEq

/-- The `ToNumber` coercion applied by `isNaN`, `%`, `>=`, `<=`, `-`, and
array indexing. -/
def JVal.toNumber : JVal → Option ℚ
  | .num q => some q
  | .nonNum _ c => c

/-- The `Game` record over raw JS move arrays: an accepted `tiles` array is
stored exactly as submitted. -/
structure JGame where
  dict : Option (List String)
  board : List String
  moves : List (List JVal)
deriving DecidableEq

/-- `tileIsValid` (server.js 124-128) under JS coercion: `!isNaN(tile)` and
`tile % 1 === 0` hold exactly when the value coerces to a finite integer
(NaN- and Infinity-coercing values fail, the former through `isNaN`, the
latter through `% 1`; both are modelled by `toNumber = none`), and the
coerced number must be between 1 and 16 — so the string `"2"`, the boolean
`true`, and `null` all reach the numeric comparisons. -/
def jsTileIsValid (t : JVal) : Bool :=
  match t.toNumber with
  | none => false
  | some q => q.den == 1 && decide ((1 : ℚ) ≤ q) && decide (q ≤ 16)

/-- `tilesToWord` (server.js 131-133) under JS coercion: `game.board[tile - 1]`
coerces the tile for the subtraction; a NaN, fractional, or out-of-range
index reads `undefined`, rendered `""` by `join`. -/
def jsTilesToWord (tiles : List JVal) (game : JGame) : String :=
  jsToUpper (String.join (tiles.map fun tile =>
    match tile.toNumber with
    | none => ""
    | some q => if q.den == 1 then jsAt game.board (q.num - 1) else ""))

/-- Strict equality `tile − k === lastTile` between exact JS numbers,
computed by cross-multiplying the fractions (so that it evaluates by plain
kernel arithmetic); `jsSubIntEq_eq` below proves it equal to the literal
`q − k = l` comparison. -/
def jsSubIntEq (q : ℚ) (k : Int) (l : ℚ) : Bool :=
  (q.num - k * q.den) * l.den == l.num * q.den

/-- `jsSubIntEq q k l` is exactly the strict equality `q − k === l` of JS
numbers. -/
theorem jsSubIntEq_eq (q l : ℚ) (k : Int) :
    jsSubIntEq q k l = decide (q - (k : ℚ) = l) := by
  rw [jsSubIntEq, Bool.eq_iff_iff]
  simp only [beq_iff_eq, decide_eq_true_eq]
  have hqd : ((q.den : ℚ)) ≠ 0 := by
    exact_mod_cast q.den_nz
  have hld : ((l.den : ℚ)) ≠ 0 := by
    exact_mod_cast l.den_nz
  have hq : (q.num : ℚ) = q * (q.den : ℚ) := (Rat.mul_den_eq_num q).symm
  have hl : (l.num : ℚ) = l * (l.den : ℚ) := (Rat.mul_den_eq_num l).symm
  constructor
  · intro h
    have h2 : ((q.num : ℚ) - (k : ℚ) * (q.den : ℚ)) * (l.den : ℚ) =
        (l.num : ℚ) * (q.den : ℚ) := by exact_mod_cast h
    rw [hq, hl] at h2
    have h4 : (q - (k : ℚ)) * ((q.den : ℚ) * (l.den : ℚ)) =
        l * ((q.den : ℚ) * (l.den : ℚ)) := by linear_combination h2
    exact mul_right_cancel₀ (mul_ne_zero hqd hld) h4
  · intro h
    have h2 : ((q.num : ℚ) - (k : ℚ) * (q.den : ℚ)) * (l.den : ℚ) =
        (l.num : ℚ) * (q.den : ℚ) := by
      rw [hq, hl]
      linear_combination (q.den : ℚ) * (l.den : ℚ) * h
    exact_mod_cast h2

/-- `isConsecutiveNeighbor` (server.js 148-164) under JS coercion: each
disjunct `tile - k === lastTile` subtracts from the coerced current tile —
yielding a number, or `NaN`, which is `===` to nothing — and strict-compares
with the previous element as a value, so it can succeed only when the
previous element is itself a number at one of the eight offsets
(`tile + k === lastTile` is `jsSubIntEq q (-k) l`). -/
def jsIsConsecutiveNeighbor (tile : JVal) (index : Nat) (tiles : List JVal) : Bool :=
  if index == 0 then true
  else
    match tiles.getD (index - 1) (.num 0), tile.toNumber with
    | .nonNum _ _, _ => false
    | .num _, none => false
    | .num l, some q =>
        jsSubIntEq q 4 l || jsSubIntEq q (-4) l
        || jsSubIntEq q 1 l || jsSubIntEq q (-1) l
        || jsSubIntEq q 3 l || jsSubIntEq q (-3) l
        || jsSubIntEq q 5 l || jsSubIntEq q (-5) l

/-- `tiles.every(isConsecutiveNeighbor)` (server.js 140) over JS values. -/
def jsEveryConsecutiveNeighbor (tiles : List JVal) : Bool :=
  (List.range tiles.length).all fun i =>
    jsIsConsecutiveNeighbor (tiles.getD i (.num 0)) i tiles

/-- `moveIsAllowed` (server.js 136-145) over JS values; `new Set(tiles).size`
compares elements by SameValueZero, which is plain equality of `JVal`. -/
def jsMoveIsAllowed (tiles : List JVal) (game : JGame) : Bool :=
  decide (3 ≤ tiles.length)
  && jsEveryConsecutiveNeighbor tiles
  && tiles.dedup.length == tiles.length
  && (game.dict.getD []).contains (jsTilesToWord tiles game)

/-- `moveExists` (server.js 167-169) over JS values. -/
def jsMoveExists (tiles : List JVal) (game : JGame) : Bool :=
  (game.moves.map fun move => jsTilesToWord move game).contains (jsTilesToWord tiles game)

/-- `createGame` (server.js 66-77) over the JS-value state. -/
def jsCreateGame (games : List JGame) (input : Option (List JElem)) :
    Except BoardErr Nat × List JGame :=
  if !boardIsValid input then (.error .InvalidBoard, games)
  else
    (.ok games.length,
     games ++ [{ dict := none,
                 board := (input.getD []).map fun e => jsToUpper e.asString,
                 moves := [] }])

/-- `setGameDict` (server.js 79-88) over the JS-value state. -/
def jsSetGameDict (games : List JGame) (gameId : Nat) (input : Option (List JElem)) :
    Except DictErr Unit × List JGame :=
  match games[gameId]? with
  | none => (.error .NotFound, games)
  | some game =>
      if !dictIsValid input then (.error .InvalidDictionary, games)
      else
        (.ok (),
         games.set gameId
           { game with dict := some ((input.getD []).map fun e => jsToUpper e.asString) })

/-- `makeMove` (server.js 90-104) with the body an array of arbitrary JS
values (`none` still models a body that is not an array at all); an accepted
array is stored as submitted. -/
def jsMakeMove (games : List JGame) (gameId : Nat) (payload : Option (List JVal)) :
    Except MoveErr (Nat × Nat) × List JGame :=
  match games[gameId]? with
  | none => (.error .NotFound, games)
  | some game =>
      if game.dict.isNone then (.error .DictionaryMissing, games)
      else
        match payload with
        | none => (.error .MalformedMove, games)
        | some tiles =>
            if !tiles.all jsTileIsValid then (.error .MalformedMove, games)
            else
              if !jsMoveIsAllowed tiles game then (.error .DisallowedMove, games)
              else if jsMoveExists tiles game then (.error .DuplicateMove, games)
              else
                (.ok (game.moves.length, 2 ^ (tiles.length - 3)),
                 games.set gameId { game with moves := game.moves ++ [tiles] })

/-- `jsMakeMove` on an unknown game id: 404 without touching state. -/
theorem jsMakeMove_no_game (games : List JGame) (gid : Nat) (p : Option (List JVal))
    (hg : games[gid]? = none) :
    jsMakeMove games gid p = (.error .NotFound, games) := by
  simp [jsMakeMove, hg]

/-- `jsMakeMove` on a game with a null dictionary: 403 without touching
state. -/
theorem jsMakeMove_no_dict (games : List JGame) (gid : Nat) (game : JGame)
    (p : Option (List JVal)) (hg : games[gid]? = some game) (hd : game.dict = none) :
    jsMakeMove games gid p = (.error .DictionaryMissing, games) := by
  simp [jsMakeMove, hg, hd]

/-- `jsMakeMove` with a body that is not an array: 400 without touching
state. -/
theorem jsMakeMove_malformed_body (games : List JGame) (gid : Nat) (game : JGame)
    (d : List String) (hg : games[gid]? = some game) (hd : game.dict = some d) :
    jsMakeMove games gid none = (.error .MalformedMove, games) := by
  simp [jsMakeMove, hg, hd]

/-- `jsMakeMove` with some element failing the coercive tile test: 400
without touching state. -/
theorem jsMakeMove_malformed_tile (games : List JGame) (gid : Nat) (game : JGame)
    (d : List String) (vs : List JVal) (hg : games[gid]? = some game)
    (hd : game.dict = some d) (hq : vs.all jsTileIsValid = false) :
    jsMakeMove games gid (some vs) = (.error .MalformedMove, games) := by
  simp [jsMakeMove, hg, hd, hq]

/-- `jsMakeMove` with a well-shaped body that `jsMoveIsAllowed` rejects: 403
without touching state. -/
theorem jsMakeMove_disallowed (games : List JGame) (gid : Nat) (game : JGame)
    (d : List String) (vs : List JVal) (hg : games[gid]? = some game)
    (hd : game.dict = some d) (hq : vs.all jsTileIsValid = true)
    (hm : jsMoveIsAllowed vs game = false) :
    jsMakeMove games gid (some vs) = (.error .DisallowedMove, games) := by
  simp [jsMakeMove, hg, hd, hq, hm]

/-- `jsMakeMove` with an allowed move whose word was already played: 403
without touching state. -/
theorem jsMakeMove_duplicate (games : List JGame) (gid : Nat) (game : JGame)
    (d : List String) (vs : List JVal) (hg : games[gid]? = some game)
    (hd : game.dict = some d) (hq : vs.all jsTileIsValid = true)
    (hm : jsMoveIsAllowed vs game = true) (hx : jsMoveExists vs game = true) :
    jsMakeMove games gid (some vs) = (.error .DuplicateMove, games) := by
  simp [jsMakeMove, hg, hd, hq, hm, hx]

/-- `jsMakeMove` success: returns the 0-indexed move id and `2^(length-3)`
points, and appends exactly the submitted array to this game's history. -/
theorem jsMakeMove_success (games : List JGame) (gid : Nat) (game : JGame)
    (d : List String) (vs : List JVal) (hg : games[gid]? = some game)
    (hd : game.dict = some d) (hq : vs.all jsTileIsValid = true)
    (hm : jsMoveIsAllowed vs game = true) (hx : jsMoveExists vs game = false) :
    jsMakeMove games gid (some vs) =
      (.ok (game.moves.length, 2 ^ (vs.length - 3)),
       games.set gid { game with moves := game.moves ++ [vs] }) := by
  simp [jsMakeMove, hg, hd, hq, hm, hx]

/-- Every `jsMakeMove` outcome is an error leaving state untouched, or a
success. -/
theorem jsMakeMove_shape (games : List JGame) (gid : Nat) (p : Option (List JVal)) :
    (∃ e, jsMakeMove games gid p = (.error e, games)) ∨
    ∃ r s2, jsMakeMove games gid p = (.ok r, s2) := by
  unfold jsMakeMove
  split
  · exact Or.inl ⟨_, rfl⟩
  · split
    · exact Or.inl ⟨_, rfl⟩
    · split
      · exact Or.inl ⟨_, rfl⟩
      · split
        · exact Or.inl ⟨_, rfl⟩
        · split
          · exact Or.inl ⟨_, rfl⟩
          · split
            · exact Or.inl ⟨_, rfl⟩
            · exact Or.inr ⟨_, _, rfl⟩

/-- Inversion of a successful `jsMakeMove`. -/
theorem jsMakeMove_ok_inv (games : List JGame) (gid : Nat) (p : Option (List JVal))
    (r : Nat × Nat) (s2 : List JGame)
    (h : jsMakeMove games gid p = (.ok r, s2)) :
    ∃ game vs d,
      games[gid]? = some game ∧ p = some vs ∧ game.dict = some d ∧
      vs.all jsTileIsValid = true ∧
      jsMoveIsAllowed vs game = true ∧
      jsMoveExists vs game = false ∧
      r = (game.moves.length, 2 ^ (vs.length - 3)) ∧
      s2 = games.set gid { game with moves := game.moves ++ [vs] } := by
  cases hg : games[gid]? with
  | none => rw [jsMakeMove_no_game games gid p hg] at h; exact absurd h (by simp)
  | some game =>
    cases hdo : game.dict with
    | none => rw [jsMakeMove_no_dict games gid game p hg hdo] at h; exact absurd h (by simp)
    | some d =>
      cases p with
      | none =>
        rw [jsMakeMove_malformed_body games gid game d hg hdo] at h
        exact absurd h (by simp)
      | some vs =>
        cases hq : vs.all jsTileIsValid with
        | false =>
          rw [jsMakeMove_malformed_tile games gid game d vs hg hdo hq] at h
          exact absurd h (by simp)
        | true =>
          cases hm : jsMoveIsAllowed vs game with
          | false =>
            rw [jsMakeMove_disallowed games gid game d vs hg hdo hq hm] at h
            exact absurd h (by simp)
          | true =>
            cases hx : jsMoveExists vs game with
            | true =>
              rw [jsMakeMove_duplicate games gid game d vs hg hdo hq hm hx] at h
              exact absurd h (by simp)
            | false =>
              rw [jsMakeMove_success games gid game d vs hg hdo hq hm hx] at h
              rw [Prod.mk.injEq] at h
              exact ⟨game, vs, d, rfl, rfl, hdo, hq, hm, hx,
                (Except.ok.inj h.1).symm, h.2.symm⟩

/-- `jsSetGameDict` on an unknown game id: 404 without touching state. -/
theorem jsSetGameDict_no_game (games : List JGame) (gid : Nat) (i : Option (List JElem))
    (hg : games[gid]? = none) :
    jsSetGameDict games gid i = (.error .NotFound, games) := by
  simp [jsSetGameDict, hg]

/-- `jsSetGameDict` with an invalid dictionary wrapper: 400 without touching
state. -/
theorem jsSetGameDict_invalid (games : List JGame) (gid : Nat) (game : JGame)
    (i : Option (List JElem)) (hg : games[gid]? = some game)
    (hi : dictIsValid i = false) :
    jsSetGameDict games gid i = (.error .InvalidDictionary, games) := by
  simp [jsSetGameDict, hg, hi]

/-- `jsSetGameDict` success: replaces this game's dictionary by the
uppercased word set and changes nothing else. -/
theorem jsSetGameDict_ok (games : List JGame) (gid : Nat) (game : JGame)
    (i : Option (List JElem)) (hg : games[gid]? = some game)
    (hi : dictIsValid i = true) :
    jsSetGameDict games gid i =
      (.ok (),
       games.set gid
         { game with dict := some ((i.getD []).map fun e => jsToUpper e.asString) }) := by
  simp [jsSetGameDict, hg, hi]

/-- Every `jsSetGameDict` outcome is an error leaving state untouched, or a
success that only rewrites the dictionary of the addressed game. -/
theorem jsSetGameDict_shape (games : List JGame) (gid : Nat) (i : Option (List JElem)) :
    (∃ e, jsSetGameDict games gid i = (.error e, games)) ∨
    ∃ game, games[gid]? = some game ∧
      jsSetGameDict games gid i =
        (.ok (),
         games.set gid
           { game with dict := some ((i.getD []).map fun e => jsToUpper e.asString) }) := by
  cases hg : games[gid]? with
  | none => exact Or.inl ⟨_, jsSetGameDict_no_game games gid i hg⟩
  | some game =>
    cases hi : dictIsValid i with
    | false => exact Or.inl ⟨_, jsSetGameDict_invalid games gid game i hg hi⟩
    | true => exact Or.inr ⟨game, rfl, jsSetGameDict_ok games gid game i hg hi⟩

/-- `jsCreateGame` with an invalid board wrapper: 400 without touching
state. -/
theorem jsCreateGame_invalid (games : List JGame) (input : Option (List JElem))
    (hb : boardIsValid input = false) :
    jsCreateGame games input = (.error .InvalidBoard, games) := by
  simp [jsCreateGame, hb]

/-- `jsCreateGame` success: appends a fresh game with a null dictionary, the
uppercased board, and no moves. -/
theorem jsCreateGame_ok (games : List JGame) (input : Option (List JElem))
    (hb : boardIsValid input = true) :
    jsCreateGame games input =
      (.ok games.length,
       games ++ [{ dict := none,
                   board := (input.getD []).map fun e => jsToUpper e.asString,
                   moves := [] }]) := by
  simp [jsCreateGame, hb]

/-- The demo game over JS values: board `A..P`, dictionary `FAB`, no moves. -/
def jsDemoGame : JGame :=
  { dict := some ["FAB"], board := demoBoard, moves := [] }

/-- Claim C1 as frozen is false on the code, in both of its parts.  With the
demo game and its dictionary attached: the submission `[1, 2]` — two valid
tile indices, so fewer than 3 — fails DisallowedMove, not MalformedMove (the
shape check of server.js line 96 never tests the length; `moveIsAllowed`
does); the body `[6, 1, "2"]` — not a sequence of numeric values, the string
`"2"` being `nonNum 1 (some 2)` — is accepted outright with moveId 0 and 1
point, because `isNaN`, `% 1`, the range comparisons, and the adjacency
subtraction all coerce the string; and `["6", "1", "2"]` fails
DisallowedMove, not MalformedMove, because strict equality in the adjacency
check rejects non-number predecessors. -/
theorem c1_counterexample :
    ((jsMakeMove [jsDemoGame] 0 (some [.num 1, .num 2])).1 = .error .DisallowedMove
      ∧ (jsMakeMove [jsDemoGame] 0 (some [.num 1, .num 2])).1 ≠ .error .MalformedMove)
    ∧ ((jsMakeMove [jsDemoGame] 0 (some [.num 6, .num 1, .nonNum 1 (some 2)])).1 = .ok (0, 1)
      ∧ (jsMakeMove [jsDemoGame] 0 (some [.num 6, .num 1, .nonNum 1 (some 2)])).1
          ≠ .error .MalformedMove)
    ∧ ((jsMakeMove [jsDemoGame] 0
          (some [.nonNum 1 (some 6), .nonNum 2 (some 1), .nonNum 3 (some 2)])).1
        = .error .DisallowedMove
      ∧ (jsMakeMove [jsDemoGame] 0
          (some [.nonNum 1 (some 6), .nonNum 2 (some 1), .nonNum 3 (some 2)])).1
          ≠ .error .MalformedMove) :=
  ⟨⟨by decide, by decide⟩, ⟨by decide, by decide⟩, ⟨by decide, by decide⟩⟩

/-- Claim C1 (amended): for a game that exists with a dictionary attached, a
body that is not an array, or one containing a value that fails the
reference tile test under JS coercion — its numeric coercion is NaN, has a
fractional part, or lies outside [1, 16] — fails MalformedMove; a submission
of fewer than 3 values passing that test passes the shape check and fails
DisallowedMove instead. -/
theorem c1_amended_shape (games : List JGame) (gid : Nat) (game : JGame) (d : List String)
    (hg : games[gid]? = some game) (hd : game.dict = some d) :
    (jsMakeMove games gid none = (.error .MalformedMove, games))
    ∧ (∀ vs, vs.all jsTileIsValid = false →
        jsMakeMove games gid (some vs) = (.error .MalformedMove, games))
    ∧ (∀ vs, vs.all jsTileIsValid = true → vs.length < 3 →
        jsMakeMove games gid (some vs) = (.error .DisallowedMove, games)) := by
  refine ⟨jsMakeMove_malformed_body games gid game d hg hd,
          fun vs hq => jsMakeMove_malformed_tile games gid game d vs hg hd hq,
          fun vs hq hlen => jsMakeMove_disallowed games gid game d vs hg hd hq ?_⟩
  have h3 : ¬ (3 ≤ vs.length) := Nat.not_le.mpr hlen
  simp [jsMoveIsAllowed, h3]

/-- Witness for C1 (amended): the demo game rejects the two-tile submission
`[1, 2]` as DisallowedMove, the body `["x", 1, 2]` (the string `"x"` coerces
to NaN) as MalformedMove, and the non-array body as MalformedMove. -/
theorem c1_witness :
    jsMakeMove [jsDemoGame] 0 (some [.num 1, .num 2]) =
      (.error .DisallowedMove, [jsDemoGame]) ∧
    jsMakeMove [jsDemoGame] 0 (some [.nonNum 4 none, .num 1, .num 2]) =
      (.error .MalformedMove, [jsDemoGame]) ∧
    jsMakeMove [jsDemoGame] 0 none = (.error .MalformedMove, [jsDemoGame]) :=
  ⟨(c1_amended_shape [jsDemoGame] 0 jsDemoGame ["FAB"] rfl rfl).2.2 [.num 1, .num 2]
      (by decide) (by decide),
   (c1_amended_shape [jsDemoGame] 0 jsDemoGame ["FAB"] rfl rfl).2.1
      [.nonNum 4 none, .num 1, .num 2] (by decide),
   (c1_amended_shape [jsDemoGame] 0 jsDemoGame ["FAB"] rfl rfl).1⟩

/-- What actually holds of a stored move: pairwise-distinct JS values (by
SameValueZero), each passing the coercive tile test, between 3 and 17 values
long, with every value before the last an actual number. -/
def JsGoodMove (m : List JVal) : Prop :=
  m.Nodup ∧ (∀ t ∈ m, jsTileIsValid t = true) ∧ 3 ≤ m.length ∧ m.length ≤ 17 ∧
  ∀ i : Nat, i + 1 < m.length → ∃ q : ℚ, m.getD i (.num 0) = .num q

/-- Every move stored in any game's history is good. -/
def JsGoodState (games : List JGame) : Prop :=
  ∀ game ∈ games, ∀ m ∈ game.moves, JsGoodMove m

/-- States reachable from the empty registry through the three operations. -/
inductive JsReachable : List JGame → Prop where
  | init : JsReachable []
  | create (s : List JGame) (i : Option (List JElem)) :
      JsReachable s → JsReachable (jsCreateGame s i).2
  | attach (s : List JGame) (gid : Nat) (i : Option (List JElem)) :
      JsReachable s → JsReachable (jsSetGameDict s gid i).2
  | move (s : List JGame) (gid : Nat) (p : Option (List JVal)) :
      JsReachable s → JsReachable (jsMakeMove s gid p).2

/-- In a path that passes the adjacency check, every element before the last
is an actual number: the strict equality `tile - k === lastTile` compares a
number with the previous element as a value. -/
theorem js_adjacent_num (vs : List JVal)
    (hadj : jsEveryConsecutiveNeighbor vs = true)
    (i : Nat) (hi : i + 1 < vs.length) :
    ∃ q : ℚ, vs.getD i (.num 0) = .num q := by
  rw [jsEveryConsecutiveNeighbor] at hadj
  have h : jsIsConsecutiveNeighbor (vs.getD (i + 1) (.num 0)) (i + 1) vs = true :=
    List.all_eq_true.mp hadj (i + 1) (List.mem_range.mpr hi)
  rw [jsIsConsecutiveNeighbor, if_neg (by simp), Nat.add_sub_cancel] at h
  cases hv : vs.getD i (.num 0) with
  | num q => exact ⟨q, rfl⟩
  | nonNum t c =>
    rw [hv] at h
    simp at h

/-- A valid JS tile value coerces to an integer between 1 and 16; for an
actual number that integer is its value. -/
theorem jsTileIsValid_bounds (v : JVal) (h : jsTileIsValid v = true) :
    ∃ q : ℚ, v.toNumber = some q ∧ q.den = 1 ∧ 1 ≤ q ∧ q ≤ 16 := by
  cases hn : v.toNumber with
  | none => rw [jsTileIsValid, hn] at h; exact absurd h (by simp)
  | some q =>
    rw [jsTileIsValid, hn] at h
    simp only [Bool.and_eq_true, beq_iff_eq, decide_eq_true_eq] at h
    exact ⟨q, rfl, h.1.1, h.1.2, h.2⟩

/-- A path of pairwise-distinct valid values whose elements before the last
are numbers has at most 17 entries: the at most `length − 1` leading numbers
are distinct integers in [1, 16]. -/
theorem jsGoodMove_length (vs : List JVal)
    (hvalid : ∀ t ∈ vs, jsTileIsValid t = true)
    (hnodup : vs.Nodup)
    (hnum : ∀ i : Nat, i + 1 < vs.length → ∃ q : ℚ, vs.getD i (.num 0) = .num q) :
    vs.length ≤ 17 := by
  have htlen : (vs.take (vs.length - 1)).length = vs.length - 1 := by
    rw [List.length_take]
    omega
  have hpre : ∀ v ∈ vs.take (vs.length - 1),
      ∃ q : ℚ, v = .num q ∧ q.den = 1 ∧ 1 ≤ q ∧ q ≤ 16 := by
    intro v hv
    obtain ⟨i, hi, hgi⟩ := List.mem_iff_getElem.mp hv
    have hi2 : i + 1 < vs.length := by omega
    obtain ⟨q, hq⟩ := hnum i hi2
    have hvq : v = .num q := by
      rw [← hgi, List.getElem_take vs, ← List.getD_eq_getElem vs (.num 0) (by omega)]
      exact hq
    obtain ⟨q2, hq2, hden, h1, h16⟩ :=
      jsTileIsValid_bounds v (hvalid v (List.mem_of_mem_take hv))
    rw [hvq] at hq2 ⊢
    rw [JVal.toNumber] at hq2
    cases Option.some.inj hq2
    exact ⟨q, rfl, hden, h1, h16⟩
  have hprenodup : (vs.take (vs.length - 1)).Nodup :=
    hnodup.sublist (List.take_sublist _ _)
  have hmapnodup :
      ((vs.take (vs.length - 1)).map fun v => (v.toNumber.getD 0).num).Nodup := by
    refine (List.nodup_map_iff_inj_on hprenodup).mpr ?_
    intro x hx y hy hf
    obtain ⟨qx, rfl, hdx, hx1, hx16⟩ := hpre x hx
    obtain ⟨qy, rfl, hdy, hy1, hy16⟩ := hpre y hy
    simp only [JVal.toNumber, Option.getD_some] at hf
    have hqq : qx = qy := by
      have hxx : (qx.num : ℚ) = qx := (Rat.den_eq_one_iff qx).mp hdx
      have hyy : (qy.num : ℚ) = qy := (Rat.den_eq_one_iff qy).mp hdy
      rw [← hxx, ← hyy, hf]
    rw [hqq]
  have hsubset :
      ((vs.take (vs.length - 1)).map fun v => (v.toNumber.getD 0).num).toFinset
        ⊆ Finset.Icc (1 : ℤ) 16 := by
    intro t ht
    rw [List.mem_toFinset, List.mem_map] at ht
    obtain ⟨v, hv, rfl⟩ := ht
    obtain ⟨q, rfl, hd, h1, h16⟩ := hpre v hv
    simp only [JVal.toNumber, Option.getD_some]
    have hqn : (q.num : ℚ) = q := (Rat.den_eq_one_iff q).mp hd
    refine Finset.mem_Icc.mpr ⟨?_, ?_⟩
    · have : (1 : ℚ) ≤ (q.num : ℚ) := by rw [hqn]; exact h1
      exact_mod_cast this
    · have : (q.num : ℚ) ≤ 16 := by rw [hqn]; exact h16
      exact_mod_cast this
  have hcard := Finset.card_le_card hsubset
  rw [List.toFinset_card_of_nodup hmapnodup, List.length_map, htlen] at hcard
  simp only [Int.card_Icc] at hcard
  omega

/-- The tiles of a move that passed the shape check and `jsMoveIsAllowed`
form a good move. -/
theorem jsAccepted_move_good (game : JGame) (vs : List JVal)
    (hq : vs.all jsTileIsValid = true)
    (hm : jsMoveIsAllowed vs game = true) :
    JsGoodMove vs := by
  simp only [jsMoveIsAllowed, Bool.and_eq_true, beq_iff_eq, decide_eq_true_eq] at hm
  obtain ⟨⟨⟨hlen, hadj⟩, hdedup⟩, hword⟩ := hm
  have hvalid : ∀ t ∈ vs, jsTileIsValid t = true := fun t ht =>
    List.all_eq_true.mp hq t ht
  have hnodup : vs.Nodup := by
    have hsub := List.dedup_sublist vs
    exact List.dedup_eq_self.mp (hsub.eq_of_length hdedup)
  have hnum := js_adjacent_num vs hadj
  exact ⟨hnodup, hvalid, hlen, jsGoodMove_length vs hvalid hnodup hnum, hnum⟩

/-- `jsCreateGame` preserves goodness of histories. -/
theorem jsGoodState_create (s : List JGame) (i : Option (List JElem))
    (h : JsGoodState s) : JsGoodState (jsCreateGame s i).2 := by
  cases hb : boardIsValid i with
  | false => rw [jsCreateGame_invalid s i hb]; exact h
  | true =>
    rw [jsCreateGame_ok s i hb]
    intro game hgame m hm
    rcases List.mem_append.mp hgame with hin | hnew
    · exact h game hin m hm
    · rw [List.mem_singleton] at hnew
      subst hnew
      exact absurd hm (List.not_mem_nil m)

/-- `jsSetGameDict` preserves goodness of histories. -/
theorem jsGoodState_attach (s : List JGame) (gid : Nat) (i : Option (List JElem))
    (h : JsGoodState s) : JsGoodState (jsSetGameDict s gid i).2 := by
  rcases jsSetGameDict_shape s gid i with ⟨e, hs2⟩ | ⟨game, hg, hs2⟩
  · rw [hs2]; exact h
  · rw [hs2]
    intro g hgmem m hm
    rcases List.mem_or_eq_of_mem_set hgmem with hin | heq
    · exact h g hin m hm
    · subst heq
      exact h game (List.getElem?_mem hg) m hm

/-- `jsMakeMove` preserves goodness of histories. -/
theorem jsGoodState_move (s : List JGame) (gid : Nat) (p : Option (List JVal))
    (h : JsGoodState s) : JsGoodState (jsMakeMove s gid p).2 := by
  rcases jsMakeMove_shape s gid p with ⟨e, hs2⟩ | ⟨r, s2, hs2⟩
  · rw [hs2]; exact h
  · obtain ⟨game, vs, d, hg, hp, hd, hq, hm, hx, hr, hset⟩ :=
      jsMakeMove_ok_inv s gid p r s2 hs2
    have h2 : (jsMakeMove s gid p).2 = s.set gid { game with moves := game.moves ++ [vs] } := by
      rw [hs2, hset]
    rw [h2]
    intro g hgmem m hmm
    rcases List.mem_or_eq_of_mem_set hgmem with hin | heq
    · exact h g hin m hmm
    · subst heq
      rcases List.mem_append.mp hmm with hold | hnew
      · exact h game (List.getElem?_mem hg) m hold
      · rw [List.mem_singleton] at hnew
        subst hnew
        exact jsAccepted_move_good game m hq hm

/-- Every reachable state is good. -/
theorem jsReachable_goodState (s : List JGame) (h : JsReachable s) : JsGoodState s := by
  induction h with
  | init => intro g hg m hm; exact absurd hg (List.not_mem_nil g)
  | create s i hr ih => exact jsGoodState_create s i ih
  | attach s gid i hr ih => exact jsGoodState_attach s gid i ih
  | move s gid p hr ih => exact jsGoodState_move s gid p ih

/-- A 17-value path: the 16 tiles 1,5,9,13,14,10,6,2,3,7,11,15,16,12,8,4
snaking over the whole board, followed by the boolean `true`, which coerces
to 1 (`true + 3 === 4` passes the adjacency check) yet is a distinct value
for `Set` membership. -/
def longPath : List JVal :=
  [.num 1, .num 5, .num 9, .num 13, .num 14, .num 10, .num 6, .num 2, .num 3, .num 7,
   .num 11, .num 15, .num 16, .num 12, .num 8, .num 4, .nonNum 0 (some 1)]

/-- The registry after creating a game from the lowercase 16-letter board. -/
def jsLongState1 : List JGame := (jsCreateGame [] (some demoLowerInput)).2

/-- The registry after then attaching the one-word dictionary holding the
17-letter word `longPath` spells on the `A..P` board. -/
def jsLongState2 : List JGame :=
  (jsSetGameDict jsLongState1 0 (some [JElem.str "AEIMNJFBCGKOPLHDA"])).2

/-- The registry after then playing `longPath`. -/
def jsLongState3 : List JGame := (jsMakeMove jsLongState2 0 (some longPath)).2

/-- Claim C10 as frozen is false on the code: from a reachable state, the
17-value submission `longPath` — 16 distinct tiles followed by the boolean
`true`, whose coercion reuses tile 1 — is accepted with 2^14 = 16384 > 8192
points, and the stored move has 17 > 16 entries, one of which is not an
integer tile index at all. -/
theorem c10_counterexample :
    JsReachable jsLongState2
    ∧ jsMakeMove jsLongState2 0 (some longPath) = (.ok (0, 16384), jsLongState3)
    ∧ JsReachable jsLongState3
    ∧ (∃ g ∈ jsLongState3, longPath ∈ g.moves)
    ∧ longPath.length = 17
    ∧ JVal.nonNum 0 (some 1) ∈ longPath
    ∧ ¬ (16384 : Nat) ≤ 8192 :=
  ⟨JsReachable.attach jsLongState1 0 (some [JElem.str "AEIMNJFBCGKOPLHDA"])
      (JsReachable.create [] (some demoLowerInput) JsReachable.init),
   by decide,
   JsReachable.move jsLongState2 0 (some longPath)
     (JsReachable.attach jsLongState1 0 (some [JElem.str "AEIMNJFBCGKOPLHDA"])
       (JsReachable.create [] (some demoLowerInput) JsReachable.init)),
   by decide, by decide, by decide, by decide⟩

/-- Claim C10 (amended): in every reachable state, every move stored in a
game's history consists of pairwise-distinct JS values each coercing to an
integer tile index in [1, 16], with every value before the last an actual
number, so its length is between 3 and 17 inclusive; consequently the points
awarded for any accepted move are an exact power of two between 1 and
16384. -/
theorem c10_history_invariant (s : List JGame) (h : JsReachable s) :
    JsGoodState s
    ∧ (∀ (gid : Nat) (p : Option (List JVal)) (mid pts : Nat) (s2 : List JGame),
        jsMakeMove s gid p = (.ok (mid, pts), s2) →
        (∃ k, k ≤ 14 ∧ pts = 2 ^ k) ∧ 1 ≤ pts ∧ pts ≤ 16384) := by
  refine ⟨jsReachable_goodState s h, ?_⟩
  intro gid p mid pts s2 hok
  obtain ⟨game, vs, d, hg, hp, hd, hq, hm, hx, hr, hset⟩ :=
    jsMakeMove_ok_inv s gid p (mid, pts) s2 hok
  have hgood := jsAccepted_move_good game vs hq hm
  have hlen17 : vs.length ≤ 17 := hgood.2.2.2.1
  have hpts : pts = 2 ^ (vs.length - 3) := (Prod.ext_iff.mp hr).2
  refine ⟨⟨vs.length - 3, by omega, hpts⟩, ?_, ?_⟩
  · rw [hpts]
    exact Nat.one_le_two_pow
  · rw [hpts]
    calc 2 ^ (vs.length - 3) ≤ 2 ^ 14 := Nat.pow_le_pow_right (by norm_num) (by omega)
    _ = 16384 := by norm_num

/-- Witness for C10 (amended): the reachable state that accepted `longPath`
is good — in particular the stored 17-value move is within the amended
bounds — and that accepted move scored `16384 = 2^14` points, within
[1, 16384]. -/
theorem c10_witness :
    JsGoodState jsLongState3
    ∧ (∃ k, k ≤ 14 ∧ (16384 : Nat) = 2 ^ k) ∧ (1 : Nat) ≤ 16384 ∧ (16384 : Nat) ≤ 16384 :=
  ⟨(c10_history_invariant jsLongState3
      (JsReachable.move jsLongState2 0 (some longPath)
        (JsReachable.attach jsLongState1 0 (some [JElem.str "AEIMNJFBCGKOPLHDA"])
          (JsReachable.create [] (some demoLowerInput) JsReachable.init)))).1,
   (c10_history_invariant jsLongState2
      (JsReachable.attach jsLongState1 0 (some [JElem.str "AEIMNJFBCGKOPLHDA"])
        (JsReachable.create [] (some demoLowerInput) JsReachable.init))).2
      0 (some longPath) 0 16384 jsLongState3 (by decide)⟩

end LettersGame
